import Mathlib

/-!
Verification of the SAC (Soft Actor-Critic) implementation in `RL/SAC.py`,
`RL/algo.py` and `RL/train.py`.

Tensor computations are embedded shallowly: scalar tensor entries become real
numbers, and autodiff tracking is embedded with dual numbers (`D`), a value
paired with a directional derivative.  `torch.no_grad()` blocks and `.detach()`
become `D.noGrad`, which keeps the value and drops the derivative.  Network
forward passes are opaque to the claims, so their outputs enter the embedded
loss functions as parameters.  Buffer and control-flow logic, which the code
runs on concrete data, is embedded executably over `ℚ`, `ℕ` and `Bool`.
-/

namespace RLCar

/-- Dual number: a scalar value together with a directional derivative
(the gradient tracked by autodiff along one parameter direction). -/
structure D where
  val : ℝ
  grad : ℝ

namespace D

/-- A leaf with no tracked gradient (buffer data, python constants). -/
def c (r : ℝ) : D := ⟨r, 0⟩

/-- Embeds `torch.no_grad()` / `.detach()`: keep the value, drop the gradient. -/
def noGrad (x : D) : D := ⟨x.val, 0⟩

instance : Add D := ⟨fun x y => ⟨x.val + y.val, x.grad + y.grad⟩⟩

instance : Sub D := ⟨fun x y => ⟨x.val - y.val, x.grad - y.grad⟩⟩

instance : Neg D := ⟨fun x => ⟨-x.val, -x.grad⟩⟩

instance : Mul D := ⟨fun x y => ⟨x.val * y.val, x.grad * y.val + x.val * y.grad⟩⟩

/-- Embeds `torch.min` on two scalars: the smaller value, gradient flowing to it. -/
noncomputable def dmin (x y : D) : D := if x.val ≤ y.val then x else y

@[simp] theorem val_c (r : ℝ) : (c r).val = r := rfl

@[simp] theorem grad_c (r : ℝ) : (c r).grad = 0 := rfl

@[simp] theorem val_noGrad (x : D) : (noGrad x).val = x.val := rfl

@[simp] theorem grad_noGrad (x : D) : (noGrad x).grad = 0 := rfl

@[simp] theorem val_add (x y : D) : (x + y).val = x.val + y.val := rfl

@[simp] theorem grad_add (x y : D) : (x + y).grad = x.grad + y.grad := rfl

@[simp] theorem val_sub (x y : D) : (x - y).val = x.val - y.val := rfl

@[simp] theorem grad_sub (x y : D) : (x - y).grad = x.grad - y.grad := rfl

@[simp] theorem val_neg (x : D) : (-x).val = -x.val := rfl

@[simp] theorem grad_neg (x : D) : (-x).grad = -x.grad := rfl

@[simp] theorem val_mul (x y : D) : (x * y).val = x.val * y.val := rfl

@[simp] theorem grad_mul (x y : D) :
    (x * y).grad = x.grad * y.val + x.val * y.grad := rfl

@[simp] theorem val_dmin (x y : D) : (dmin x y).val = min x.val y.val := by
  unfold dmin
  split <;> rw [min_def] <;> split <;> first | rfl | linarith

end D

/-- Embeds `tensor.mean()`: mean of the values, with the mean of the gradients
(the derivative of the mean). -/
noncomputable def dmean (l : List D) : D :=
  ⟨(l.map D.val).sum / l.length, (l.map D.grad).sum / l.length⟩

@[simp] theorem val_dmean (l : List D) :
    (dmean l).val = (l.map D.val).sum / l.length := rfl

@[simp] theorem grad_dmean (l : List D) :
    (dmean l).grad = (l.map D.grad).sum / l.length := rfl

/-! ### Critic update (`SAC.critic_loss_func`, SAC.py lines 88-99)

Per batch element the embedded inputs are: the live critic outputs
`nowQ1, nowQ2` (gradient-carrying), the target-critic outputs `q1t, q2t` and
the policy log-probability `logpi` at the next state (all produced inside the
`torch.no_grad()` block), and the buffer data `rew`, `done`. -/

structure CriticBatchElem where
  nowQ1 : D
  nowQ2 : D
  rew : ℝ
  done : ℝ
  q1t : ℝ
  q2t : ℝ
  logpi : ℝ

/-- Line 93: `target_vs = torch.min(q1, q2) - self.alpha * log_pis`, computed inside
`with torch.no_grad():` (SAC.py lines 90-93). -/
noncomputable def target_vs (alpha : D) (b : CriticBatchElem) : D :=
  D.noGrad (D.dmin (D.c b.q1t) (D.c b.q2t) - alpha * D.c b.logpi)

/-- Line 95: `target_qs = self.reward_scale * rews + self.gamma * target_vs * (1.0 - dones)`
(SAC.py line 95). -/
noncomputable def target_qs (rewardScale gamma : ℝ) (alpha : D) (b : CriticBatchElem) : D :=
  D.c rewardScale * D.c b.rew + D.c gamma * target_vs alpha b * (D.c 1 - D.c b.done)

/-- Lines 97-98: `loss_c1 = (now_q1 - target_qs).pow_(2).mean()` and likewise `loss_c2`
(SAC.py lines 97-98). -/
noncomputable def critic_loss_func (rewardScale gamma : ℝ) (alpha : D)
    (batch : List CriticBatchElem) : D × D :=
  let sq1 := batch.map fun b =>
    (b.nowQ1 - target_qs rewardScale gamma alpha b) *
      (b.nowQ1 - target_qs rewardScale gamma alpha b)
  let sq2 := batch.map fun b =>
    (b.nowQ2 - target_qs rewardScale gamma alpha b) *
      (b.nowQ2 - target_qs rewardScale gamma alpha b)
  (dmean sq1, dmean sq2)

/-- The target value exactly as the specification writes it. -/
noncomputable def specTargetQ (rewardScale gamma : ℝ) (alphaVal : ℝ)
    (b : CriticBatchElem) : ℝ :=
  rewardScale * b.rew +
    gamma * (1 - b.done) * (min b.q1t b.q2t - alphaVal * b.logpi)

theorem target_qs_val (rewardScale gamma : ℝ) (alpha : D) (b : CriticBatchElem) :
    (target_qs rewardScale gamma alpha b).val =
      specTargetQ rewardScale gamma alpha.val b := by
  simp [target_qs, target_vs, specTargetQ]
  ring

/-- C1: for every batch element, the critic training target equals
`reward_scale * r + gamma * (1 - done) * (min(q1t, q2t) - alpha * log_pi)`,
its tracked gradient is `0` (it is computed under `torch.no_grad()`), and the
two critic losses are the mean squared errors of `q1(s,a)` and `q2(s,a)`
against exactly that target value. -/
theorem C1_critic_target (rewardScale gamma : ℝ) (alpha : D)
    (batch : List CriticBatchElem) (b : CriticBatchElem) :
    (target_qs rewardScale gamma alpha b).grad = 0 ∧
    (target_qs rewardScale gamma alpha b).val =
      specTargetQ rewardScale gamma alpha.val b ∧
    (critic_loss_func rewardScale gamma alpha batch).1.val =
      (batch.map fun e =>
        (e.nowQ1.val - specTargetQ rewardScale gamma alpha.val e) ^ 2).sum /
        batch.length ∧
    (critic_loss_func rewardScale gamma alpha batch).2.val =
      (batch.map fun e =>
        (e.nowQ2.val - specTargetQ rewardScale gamma alpha.val e) ^ 2).sum /
        batch.length := by
  refine ⟨by simp [target_qs, target_vs], target_qs_val _ _ _ _, ?_, ?_⟩
  · simp only [critic_loss_func, val_dmean, List.map_map, List.length_map]
    rw [List.map_congr_left fun e _ => ?_]
    simp [Function.comp, target_qs_val]
    ring
  · simp only [critic_loss_func, val_dmean, List.map_map, List.length_map]
    rw [List.map_congr_left fun e _ => ?_]
    simp [Function.comp, target_qs_val]
    ring

/-! ### Actor update (`SAC.actor_loss_func`, SAC.py lines 82-86)

Per batch element: the gradient-carrying log-probability `logpi` of the freshly
reparameterized action and the live critic outputs `q1, q2` on it. -/

structure ActorBatchElem where
  logpi : D
  q1 : D
  q2 : D

/-- Line 85: `loss_actor = (self.alpha * log_pis - torch.min(q1, q2)).mean()`
(SAC.py line 85). -/
noncomputable def actor_loss_func (alpha : D) (batch : List ActorBatchElem) : D :=
  dmean (batch.map fun b => alpha * b.logpi - D.dmin b.q1 b.q2)

/-! ### Entropy-coefficient machinery (`SAC.entropy_adjust_func`, lines 134-140,
and `SAC.__init__`, lines 40-41, 51)

`self.alpha` is a raw scalar tensor updated by `torch.optim.Adam([self.alpha])`.
`adamStep` is the exact single-parameter Adam recurrence of
`torch.optim.Adam` with its default `betas=(0.9, 0.999)`, `eps=1e-8`. -/

structure AlphaState where
  alpha : ℝ
  m : ℝ
  v : ℝ
  t : ℕ

/-- One `torch.optim.Adam` step on the scalar `alpha` with gradient `g`. -/
noncomputable def adamStep (lr beta1 beta2 eps g : ℝ) (s : AlphaState) : AlphaState :=
  let t := s.t + 1
  let m := beta1 * s.m + (1 - beta1) * g
  let v := beta2 * s.v + (1 - beta2) * (g * g)
  let mhat := m / (1 - beta1 ^ t)
  let vhat := v / (1 - beta2 ^ t)
  { alpha := s.alpha - lr * mhat / (Real.sqrt vhat + eps), m := m, v := v, t := t }

/-- Line 41: `self.alpha = torch.tensor(min_alpha * 3.0, requires_grad=True)`
(SAC.py line 41). -/
def alpha_init (minAlpha : ℝ) : ℝ := minAlpha * 3.0

/-- The entropy loss of SAC.py lines 135-137: `with torch.no_grad(): loss =
log_pis + self.min_alpha` (the detached inner map) then
`loss = -(self.alpha * loss).mean()`. -/
noncomputable def entropy_loss (alpha : D) (minAlpha : ℝ) (logpis : List D) : D :=
  Neg.neg (dmean ((logpis.map fun lp => D.noGrad (lp + D.c minAlpha)).map
    fun l => alpha * l))

/-- Derivative of the entropy loss with respect to `alpha`:
`-mean(log_pis + min_alpha)`.  This is the gradient `loss.backward()` hands to
the Adam step on `alpha`. -/
noncomputable def entropyGrad (minAlpha : ℝ) (logpis : List ℝ) : ℝ :=
  -((logpis.map fun lp => lp + minAlpha).sum / logpis.length)

/-! ### SAC state machine (parameter ownership and soft updates)

Network parameters are flattened into lists of scalars; the Adam steps of the
actor and critic optimizers are opaque functions applied to exactly the
parameter list each optimizer was constructed with (SAC.py lines 49-51). -/

structure SACState where
  actorP : List ℝ
  criticP : List ℝ
  targetP : List ℝ
  alphaSt : AlphaState
  learningSteps : ℕ

/-- Embeds `SAC.__init__`: the target critic is initialized by
`self.critic_target.load_state_dict(self.critic.state_dict())` (line 44), so
its parameters start as an exact copy of the critic parameters; `alpha` starts
at `min_alpha * 3.0` with a fresh Adam state. -/
def sac_init (actor0 critic0 : List ℝ) (minAlpha : ℝ) : SACState :=
  { actorP := actor0, criticP := critic0, targetP := critic0,
    alphaSt := { alpha := alpha_init minAlpha, m := 0, v := 0, t := 0 },
    learningSteps := 0 }

/-- Embeds `SAC.update_target` (lines 121-124): `target.data.mul_(1.0 - self.tau)`
then `target.data.add_(self.tau * trained.data)`, element-wise over the zipped
parameter lists. -/
def soft_update (tau : ℝ) (target trained : List ℝ) : List ℝ :=
  List.zipWith (fun tp p => (1 - tau) * tp + tau * p) target trained

/-- Embeds `SAC.entropy_adjust_func` (lines 134-140): one Adam step on `alpha` alone,
with the gradient of the entropy loss. -/
noncomputable def entropy_adjust_func (lr minAlpha : ℝ) (logpis : List ℝ)
    (s : SACState) : SACState :=
  { s with alphaSt :=
      adamStep lr 0.9 0.999 1e-8 (entropyGrad minAlpha logpis) s.alphaSt }

/-- Embeds `SAC.update_critic` (lines 101-109): `optim_critic.step()` mutates exactly
the critic parameters; the step itself is an opaque optimizer move `stepC`. -/
def update_critic (stepC : List ℝ → List ℝ) (s : SACState) : SACState :=
  { s with criticP := stepC s.criticP }

/-- Embeds `SAC.update_actor` (lines 111-119): `optim_actor.step()` mutates exactly
the actor parameters, then `entropy_adjust_func(log_pis)` runs. -/
noncomputable def update_actor (stepA : List ℝ → List ℝ) (lr minAlpha : ℝ)
    (logpis : List ℝ) (s : SACState) : SACState :=
  entropy_adjust_func lr minAlpha logpis { s with actorP := stepA s.actorP }

/-- Embeds `SAC.update_target` acting on the whole state (lines 121-124). -/
def update_target (tau : ℝ) (s : SACState) : SACState :=
  { s with targetP := soft_update tau s.targetP s.criticP }

/-- Embeds `SAC.update` (lines 126-132): increment `learning_steps`, critic update,
actor update (which runs the entropy adjustment), target soft update. -/
noncomputable def update (stepC stepA : List ℝ → List ℝ) (tau lr minAlpha : ℝ)
    (logpis : List ℝ) (s : SACState) : SACState :=
  update_target tau (update_actor stepA lr minAlpha logpis
    (update_critic stepC { s with learningSteps := s.learningSteps + 1 }))

/-- C2: the actor loss is the batch mean of
`alpha * log_pi(a|s) - min(q1(s,a), q2(s,a))`, and the actor update mutates
only the actor parameters: critic and target parameters are untouched. -/
theorem C2_actor_loss (alpha : D) (batch : List ActorBatchElem)
    (stepA : List ℝ → List ℝ) (lr minAlpha : ℝ) (logpis : List ℝ)
    (s : SACState) :
    (actor_loss_func alpha batch).val =
      (batch.map fun b =>
        alpha.val * b.logpi.val - min b.q1.val b.q2.val).sum / batch.length ∧
    (update_actor stepA lr minAlpha logpis s).criticP = s.criticP ∧
    (update_actor stepA lr minAlpha logpis s).targetP = s.targetP ∧
    (update_actor stepA lr minAlpha logpis s).actorP = stepA s.actorP := by
  refine ⟨?_, rfl, rfl, rfl⟩
  have h : ((batch.map fun b => alpha * b.logpi - D.dmin b.q1 b.q2).map D.val)
      = batch.map fun b =>
          alpha.val * b.logpi.val - min b.q1.val b.q2.val := by
    induction batch with
    | nil => rfl
    | cons x xs ih => simp_all
  simp only [actor_loss_func, val_dmean, h, List.length_map]

/-- C3: `alpha` is initialized to `3 * min_alpha` (strictly above `min_alpha`
when it is positive); the entropy loss equals
`-mean(alpha * (log_pi + min_alpha))` with the log-probabilities detached (no
gradient flows into the policy direction); the gradient handed to the `alpha`
optimizer is the derivative `-mean(log_pi + min_alpha)` of that loss in
`alpha`; and the entropy step mutates no actor/critic/target parameter. -/
theorem C3_entropy_adjust (minAlpha a : ℝ) (logpis : List D)
    (hm : 0 < minAlpha) :
    alpha_init minAlpha = 3 * minAlpha ∧
    minAlpha < alpha_init minAlpha ∧
    (entropy_loss (D.c a) minAlpha logpis).val =
      -((logpis.map fun lp => a * (lp.val + minAlpha)).sum / logpis.length) ∧
    (entropy_loss (D.c a) minAlpha logpis).grad = 0 ∧
    (∀ lps : List ℝ,
      (entropy_loss ⟨a, 1⟩ minAlpha (lps.map D.c)).grad =
        entropyGrad minAlpha lps) ∧
    (∀ lr lps s, (entropy_adjust_func lr minAlpha lps s).actorP = s.actorP ∧
      (entropy_adjust_func lr minAlpha lps s).criticP = s.criticP ∧
      (entropy_adjust_func lr minAlpha lps s).targetP = s.targetP ∧
      (entropy_adjust_func lr minAlpha lps s).alphaSt =
        adamStep lr 0.9 0.999 1e-8 (entropyGrad minAlpha lps) s.alphaSt) := by
  refine ⟨by simp [alpha_init]; ring, by simp [alpha_init]; linarith, ?_, ?_, ?_,
    fun lr lps s => ⟨rfl, rfl, rfl, rfl⟩⟩
  · have h : (((logpis.map fun lp => D.noGrad (lp + D.c minAlpha)).map
        fun l => D.c a * l).map D.val)
        = logpis.map fun lp => a * (lp.val + minAlpha) := by
      induction logpis with
      | nil => rfl
      | cons x xs ih => simp_all
    simp only [entropy_loss, D.val_neg, val_dmean, h, List.length_map]
  · have h : (((logpis.map fun lp => D.noGrad (lp + D.c minAlpha)).map
        fun l => D.c a * l).map D.grad)
        = logpis.map fun _ => (0 : ℝ) := by
      induction logpis with
      | nil => rfl
      | cons x xs ih => simp_all
    have hz : (logpis.map fun _ => (0 : ℝ)).sum = 0 := by
      induction logpis with
      | nil => rfl
      | cons x xs ih => simp_all
    simp only [entropy_loss, D.grad_neg, grad_dmean, h, hz, zero_div, neg_zero]
  · intro lps
    have h : ((((lps.map D.c).map fun lp => D.noGrad (lp + D.c minAlpha)).map
        fun l => (⟨a, 1⟩ : D) * l).map D.grad)
        = lps.map fun lp => lp + minAlpha := by
      induction lps with
      | nil => rfl
      | cons x xs ih => simp_all
    simp only [entropy_loss, entropyGrad, D.grad_neg, grad_dmean, h,
      List.length_map]

/-- Witness for `C3_entropy_adjust` at `min_alpha = 1`, `a = 0`, empty batch. -/
theorem C3_entropy_adjust_witness :
    alpha_init 1 = 3 * 1 ∧
    (1 : ℝ) < alpha_init 1 ∧
    (entropy_loss (D.c 0) 1 []).val =
      -((([] : List D).map fun lp => 0 * (lp.val + 1)).sum / ([] : List D).length) ∧
    (entropy_loss (D.c 0) 1 []).grad = 0 ∧
    (∀ lps : List ℝ,
      (entropy_loss ⟨0, 1⟩ 1 (lps.map D.c)).grad = entropyGrad 1 lps) ∧
    (∀ lr lps s, (entropy_adjust_func lr 1 lps s).actorP = s.actorP ∧
      (entropy_adjust_func lr 1 lps s).criticP = s.criticP ∧
      (entropy_adjust_func lr 1 lps s).targetP = s.targetP ∧
      (entropy_adjust_func lr 1 lps s).alphaSt =
        adamStep lr 0.9 0.999 1e-8 (entropyGrad 1 lps) s.alphaSt) :=
  C3_entropy_adjust 1 0 [] one_pos

/-! ### Reachable states of the SAC algorithm

A state is reachable when it is the freshly constructed state (`SAC.__init__`)
or arises from a reachable state by one `SAC.update()` call.  The network
optimizer moves `stepC`, `stepA` and the sampled log-probabilities `logpis`
are arbitrary, since they depend on data and network internals the claims do
not constrain. -/

inductive SACReachable (tau lr minAlpha : ℝ) : SACState → Prop where
  | init (actor0 critic0 : List ℝ) :
      SACReachable tau lr minAlpha (sac_init actor0 critic0 minAlpha)
  | step (stepC stepA : List ℝ → List ℝ) (logpis : List ℝ) (s : SACState) :
      SACReachable tau lr minAlpha s →
      SACReachable tau lr minAlpha (update stepC stepA tau lr minAlpha logpis s)

/-- One `update()` of the run refuting `alpha ≥ 0`: default `lr_alpha = 3e-4`,
`min_alpha = 0.1`, every sampled batch giving `log_pi = -1.1`. -/
noncomputable def badStep (s : SACState) : SACState :=
  update id id 0 (3/10000) (1/10) [-(11/10)] s

/-- The refuting run after `n` update calls, from an empty-parameter init. -/
noncomputable def badSACRun (n : ℕ) : SACState :=
  badStep^[n] (sac_init [] [] (1/10))

theorem entropyGrad_bad : entropyGrad (1/10) [-(11/10)] = 1 := by
  simp [entropyGrad]
  norm_num

/-- Per-step decrement of `alpha` along the refuting run. -/
noncomputable def badDec : ℝ := (3/10000) / (1 + 1e-8)

theorem badSACRun_alphaSt (n : ℕ) :
    (badSACRun n).alphaSt =
      ⟨3/10 - n * badDec, 1 - (0.9:ℝ)^n, 1 - (0.999:ℝ)^n, n⟩ := by
  induction n with
  | zero =>
    simp only [badSACRun, Function.iterate_zero, id_eq, sac_init, alpha_init]
    norm_num
  | succ k ih =>
    have hstep : badSACRun (k+1) = badStep (badSACRun k) :=
      Function.iterate_succ_apply' _ _ _
    have halpha : (badStep (badSACRun k)).alphaSt =
        adamStep (3/10000) 0.9 0.999 1e-8 (entropyGrad (1/10) [-(11/10)])
          (badSACRun k).alphaSt := rfl
    rw [hstep, halpha, ih, entropyGrad_bad]
    have h9 : (0.9:ℝ) ^ (k+1) < 1 :=
      pow_lt_one₀ (by norm_num) (by norm_num) k.succ_ne_zero
    have h99 : (0.999:ℝ) ^ (k+1) < 1 :=
      pow_lt_one₀ (by norm_num) (by norm_num) k.succ_ne_zero
    have hm : (0.9:ℝ) * (1 - 0.9^k) + (1 - 0.9) * 1 = 1 - 0.9^(k+1) := by ring
    have hv : (0.999:ℝ) * (1 - 0.999^k) + (1 - 0.999) * (1*1) =
        1 - 0.999^(k+1) := by ring
    simp only [adamStep, hm, hv]
    have hne9 : (1:ℝ) - 0.9^(k+1) ≠ 0 := by linarith
    have hne99 : (1:ℝ) - 0.999^(k+1) ≠ 0 := by linarith
    rw [div_self hne9, div_self hne99, Real.sqrt_one]
    congr 1
    simp only [badDec]
    push_cast
    ring

theorem badSACRun_reachable (n : ℕ) :
    SACReachable 0 (3/10000) (1/10) (badSACRun n) := by
  induction n with
  | zero => exact .init [] []
  | succ k ih =>
    rw [show badSACRun (k+1) = badStep (badSACRun k) from
      Function.iterate_succ_apply' _ _ _]
    exact .step id id [-(11/10)] _ ih

/-- C4: the invariant `alpha ≥ 0` does NOT hold in every reachable state.
Nothing in the code clamps or reparameterizes `alpha`; with the default
`lr_alpha = 3e-4`, `min_alpha = 0.1`, and batches whose log-probabilities are
all `-1.1`, 1001 update calls drive `alpha` strictly below zero. -/
theorem C4_alpha_negative_reachable :
    SACReachable 0 (3/10000) (1/10) (badSACRun 1001) ∧
    (badSACRun 1001).alphaSt.alpha < 0 := by
  refine ⟨badSACRun_reachable 1001, ?_⟩
  rw [badSACRun_alphaSt 1001]
  simp only [badDec]
  norm_num

/-! ### Target-network initialization and soft update (C5) -/

theorem soft_update_one (target trained : List ℝ)
    (h : target.length = trained.length) :
    soft_update 1 target trained = trained := by
  induction target generalizing trained with
  | nil => cases trained with
    | nil => rfl
    | cons y ys => simp at h
  | cons x xs ih => cases trained with
    | nil => simp at h
    | cons y ys =>
      simp only [List.length_cons] at h
      simp only [soft_update, List.zipWith_cons_cons]
      exact congrArg₂ List.cons (by ring) (ih ys (by omega))

theorem soft_update_zero (target trained : List ℝ)
    (h : target.length = trained.length) :
    soft_update 0 target trained = target := by
  induction target generalizing trained with
  | nil => rfl
  | cons x xs ih => cases trained with
    | nil => simp at h
    | cons y ys =>
      simp only [List.length_cons] at h
      simp only [soft_update, List.zipWith_cons_cons]
      exact congrArg₂ List.cons (by ring) (ih ys (by omega))

/-- C5: target parameters start as an exact copy of the critic parameters;
critic and actor gradient updates never touch them; a full `update()` changes
them only through the element-wise soft update
`(1 - tau) * target + tau * trained`; one soft update with `tau = 1` makes the
target equal the critic exactly, and with `tau = 0` it changes nothing. -/
theorem C5_target_updates (actor0 critic0 : List ℝ) (minAlpha tau lr : ℝ)
    (target trained : List ℝ) (h : target.length = trained.length)
    (stepC stepA : List ℝ → List ℝ) (logpis : List ℝ) (s : SACState) :
    (sac_init actor0 critic0 minAlpha).targetP =
      (sac_init actor0 critic0 minAlpha).criticP ∧
    (update_critic stepC s).targetP = s.targetP ∧
    (update_actor stepA lr minAlpha logpis s).targetP = s.targetP ∧
    (update_target tau s).targetP = soft_update tau s.targetP s.criticP ∧
    (update stepC stepA tau lr minAlpha logpis s).targetP =
      soft_update tau s.targetP (stepC s.criticP) ∧
    soft_update 1 target trained = trained ∧
    soft_update 0 target trained = target :=
  ⟨rfl, rfl, rfl, rfl, rfl, soft_update_one target trained h,
    soft_update_zero target trained h⟩

/-- Witness for `C5_target_updates` on concrete two-parameter networks. -/
theorem C5_target_updates_witness :
    (sac_init [5] [7, 8] 1).targetP = (sac_init [5] [7, 8] 1).criticP ∧
    (update_critic id (sac_init [5] [7, 8] 1)).targetP =
      (sac_init [5] [7, 8] 1).targetP ∧
    (update_actor id 1 1 [] (sac_init [5] [7, 8] 1)).targetP =
      (sac_init [5] [7, 8] 1).targetP ∧
    (update_target (1/2) (sac_init [5] [7, 8] 1)).targetP =
      soft_update (1/2) (sac_init [5] [7, 8] 1).targetP
        (sac_init [5] [7, 8] 1).criticP ∧
    (update id id (1/2) 1 1 [] (sac_init [5] [7, 8] 1)).targetP =
      soft_update (1/2) (sac_init [5] [7, 8] 1).targetP
        (id (sac_init [5] [7, 8] 1).criticP) ∧
    soft_update 1 [1, 2] [3, 4] = [3, 4] ∧
    soft_update 0 [1, 2] [3, 4] = [1, 2] :=
  C5_target_updates [5] [7, 8] 1 (1/2) 1 [1, 2] [3, 4] rfl id id []
    (sac_init [5] [7, 8] 1)

/-! ### Warm-up gating and environment stepping (`SAC.is_update`, `SAC.step`,
SAC.py lines 62-80)

States and actions are numeric vectors; outside the loss computations the code
manipulates them as opaque data, embedded here over `ℚ` so everything is
executable. -/

/-- Embeds `SAC.is_update` (lines 62-63):
`steps >= max(self.start_steps, self.batch_size)`. -/
def is_update (startSteps batchSize steps : ℕ) : Bool :=
  decide (steps ≥ max startSteps batchSize)

/-- Embeds the branch condition of SAC.py line 67 (steps at or below start_steps). -/
def action_is_random (startSteps steps : ℕ) : Bool :=
  decide (steps ≤ startSteps)

/-- A transition tuple `(state, action, reward, done, next_state)`. -/
structure Transition where
  state : List ℚ
  action : List ℚ
  reward : ℚ
  done : Bool
  nstate : List ℚ
deriving DecidableEq

/-- The replay buffer of algo.py lines 45-57.  The storage itself lives in the
external `pfrl.replay_buffers.ReplayBuffer`, so it is
modelled from the spec: a bounded store with a write cursor that wraps modulo
the capacity once the logical size reaches it. -/
structure ReplayBuffer where
  capacity : ℕ
  data : List Transition
  idx : ℕ
deriving DecidableEq

def ReplayBuffer.size (b : ReplayBuffer) : ℕ := b.data.length

/-- Modelled from the spec: `append` (backed by the external pfrl buffer)
stores the transition at the write cursor, growing the logical size until the
capacity is reached and overwriting the oldest slot afterwards. -/
def ReplayBuffer.append (b : ReplayBuffer) (tr : Transition) : ReplayBuffer :=
  if b.data.length < b.capacity then
    { b with data := b.data ++ [tr], idx := (b.idx + 1) % b.capacity }
  else
    { b with data := b.data.set b.idx tr, idx := (b.idx + 1) % b.capacity }

inductive SampleError where
  | insufficientData
deriving DecidableEq

/-- The five index-aligned batch arrays built by `ReplayBuffer.sample`
(algo.py lines 59-73), with done-flags converted to `0.0 / 1.0` by
`torch.Tensor([float(obs[0]["is_state_terminal"])])`. -/
structure SampleBatch where
  states : List (List ℚ)
  actions : List (List ℚ)
  rewards : List ℚ
  dones : List ℚ
  nstates : List (List ℚ)
deriving DecidableEq

/-- Embeds `ReplayBuffer.sample` (algo.py lines 59-73).  The underlying pfrl draw is
modelled from the spec: `batch_size` indices drawn uniformly with replacement
from the stored entries are represented by the index list `idxs`; sampling
from a buffer with fewer stored transitions than `batch_size` fails with
`InsufficientData`. -/
def ReplayBuffer.sampleOut (b : ReplayBuffer) (idxs : List ℕ) : SampleBatch :=
  let picked := idxs.map fun i => b.data.getD i ⟨[], [], 0, false, []⟩
  { states := picked.map Transition.state,
    actions := picked.map Transition.action,
    rewards := picked.map Transition.reward,
    dones := picked.map fun tr => if tr.done then (1 : ℚ) else 0,
    nstates := picked.map Transition.nstate }

def ReplayBuffer.sample (b : ReplayBuffer) (batchSize : ℕ) (idxs : List ℕ) :
    Except SampleError SampleBatch :=
  if b.data.length < batchSize then .error .insufficientData
  else .ok (b.sampleOut idxs)

/-- The environment interface used by `SAC.step`: `env.step(action)` returns
`(next_state, reward, done)` (`info` is discarded), `env.reset()` returns a
fresh observation, `env.action_space.sample()` a random action. -/
structure EnvModel where
  stepF : List ℚ → List ℚ → List ℚ × ℚ × Bool
  resetObs : List ℚ
  randomAction : List ℚ

/-- The action selected by `SAC.step` (lines 67-70): the environment's random
sample during warm-up, the stochastic policy afterwards (`policyAct` embeds
`self.explore`). -/
def sac_step_action (env : EnvModel) (policyAct : List ℚ → List ℚ)
    (startSteps : ℕ) (state : List ℚ) (steps : ℕ) : List ℚ :=
  if action_is_random startSteps steps then env.randomAction
  else policyAct state

/-- Embeds `SAC.step` (lines 65-80): choose an action, step the environment, append
the transition, and on `done` reset the environment and zero the episode
counter.  Returns the new buffer, the state handed back to the caller and the
new episode counter. -/
def sac_step (env : EnvModel) (policyAct : List ℚ → List ℚ) (startSteps : ℕ)
    (b : ReplayBuffer) (state : List ℚ) (t steps : ℕ) :
    ReplayBuffer × List ℚ × ℕ :=
  let t1 := t + 1
  let action := sac_step_action env policyAct startSteps state steps
  let res := env.stepF state action
  let b2 := b.append ⟨state, action, res.2.1, res.2.2, res.1⟩
  if res.2.2 then (b2, env.resetObs, 0) else (b2, res.1, t1)

/-- C6 counterexample: the claim says that outside warm-up (`¬ steps <
start_steps`) the action comes from the policy, but at `steps = start_steps`
(here both 5) the code still takes the random action, because line 67 tests
`steps <= self.start_steps`. -/
theorem C6_counterexample :
    ¬ (∀ (env : EnvModel) (policyAct : List ℚ → List ℚ)
        (startSteps steps : ℕ) (state : List ℚ), ¬ steps < startSteps →
        sac_step_action env policyAct startSteps state steps =
          policyAct state) := by
  intro hcl
  have h := hcl ⟨fun _ _ => ([], 0, false), [], [1]⟩ (fun _ => [2]) 5 5 []
    (by omega)
  simp [sac_step_action, action_is_random] at h

/-- C6 (amended): `is_update(steps)` is false exactly below
`max(start_steps, batch_size)` and true from that threshold on; and `SAC.step`
takes the environment's random action exactly when `steps ≤ start_steps`
(boundary included), querying the policy only for `steps > start_steps`. -/
theorem C6_warmup_gating (env : EnvModel) (policyAct : List ℚ → List ℚ)
    (startSteps batchSize steps : ℕ) (state : List ℚ) :
    (is_update startSteps batchSize steps = false ↔
      steps < max startSteps batchSize) ∧
    (is_update startSteps batchSize steps = true ↔
      max startSteps batchSize ≤ steps) ∧
    sac_step_action env policyAct startSteps state steps =
      (if steps ≤ startSteps then env.randomAction else policyAct state) := by
  refine ⟨?_, ?_, ?_⟩
  · simp [is_update]
    omega
  · simp [is_update]
  · simp [sac_step_action, action_is_random]

/-- C10: `SAC.step` appends the transition carrying the terminal `next_state`
to the buffer; on `done` it resets the environment itself and returns the
fresh observation with episode counter `0`, otherwise it returns the
environment's `next_state` with counter `t + 1`. -/
theorem C10_step_done_reset (env : EnvModel) (policyAct : List ℚ → List ℚ)
    (startSteps : ℕ) (b : ReplayBuffer) (state : List ℚ) (t steps : ℕ)
    (ns : List ℚ) (rew : ℚ) (done : Bool)
    (hstep : env.stepF state
      (sac_step_action env policyAct startSteps state steps) =
        (ns, rew, done)) :
    sac_step env policyAct startSteps b state t steps =
      (b.append ⟨state, sac_step_action env policyAct startSteps state steps,
         rew, done, ns⟩,
       if done then env.resetObs else ns,
       if done then 0 else t + 1) := by
  simp only [sac_step, hstep]
  cases done <;> simp

/-- A one-step always-done environment used to witness `C10_step_done_reset`. -/
def envDoneEx : EnvModel := ⟨fun _ _ => ([1], 2, true), [9], [4]⟩

/-- Witness for `C10_step_done_reset`: concrete step with `done = true`. -/
theorem C10_step_done_reset_witness :
    sac_step envDoneEx (fun _ => [0]) 0 ⟨5, [], 0⟩ [3] 7 5 =
      (ReplayBuffer.append ⟨5, [], 0⟩
         ⟨[3], sac_step_action envDoneEx (fun _ => [0]) 0 [3] 5, 2, true, [1]⟩,
       if true then envDoneEx.resetObs else [1],
       if true then 0 else 7 + 1) :=
  C10_step_done_reset envDoneEx (fun _ => [0]) 0 ⟨5, [], 0⟩ [3] 7 5 [1] 2 true
    rfl

theorem getD_map_of_lt {α β : Type} (f : α → β) (l : List α) (k : ℕ)
    (hk : k < l.length) (d : β) (d2 : α) :
    (l.map f).getD k d = f (l.getD k d2) := by
  simp [List.getD_eq_getElem?_getD, List.getElem?_map,
    List.getElem?_eq_getElem hk]

/-- C7: sampling from a buffer holding fewer transitions than `batch_size`
fails with `InsufficientData`; otherwise it succeeds with five index-aligned
arrays of length `batch_size` whose `k`-th entries all come from one stored
transition, with the done-flag encoded as `0 / 1`.  The uniform
with-replacement draw is represented by the arbitrary in-range index list
`idxs`. -/
theorem C7_buffer_sample (b : ReplayBuffer) (batchSize : ℕ) (idxs : List ℕ)
    (hlen : idxs.length = batchSize) (hidx : ∀ i ∈ idxs, i < b.size) :
    (b.size < batchSize →
      b.sample batchSize idxs = .error .insufficientData) ∧
    (batchSize ≤ b.size → ∃ out : SampleBatch,
      b.sample batchSize idxs = .ok out ∧
      out.states.length = batchSize ∧ out.actions.length = batchSize ∧
      out.rewards.length = batchSize ∧ out.dones.length = batchSize ∧
      out.nstates.length = batchSize ∧
      ∀ k, k < batchSize → ∃ tr, tr ∈ b.data ∧
        out.states.getD k [] = tr.state ∧
        out.actions.getD k [] = tr.action ∧
        out.rewards.getD k 0 = tr.reward ∧
        out.dones.getD k 0 = (if tr.done then (1 : ℚ) else 0) ∧
        out.nstates.getD k [] = tr.nstate) := by
  constructor
  · intro hlt
    have hlt2 : b.data.length < batchSize := hlt
    simp only [ReplayBuffer.sample, if_pos hlt2]
  · intro hge
    have hnot : ¬ b.data.length < batchSize := not_lt.mpr hge
    refine ⟨b.sampleOut idxs, ?_, ?_, ?_, ?_, ?_, ?_, ?_⟩
    · simp only [ReplayBuffer.sample, if_neg hnot]
    · simp [ReplayBuffer.sampleOut, hlen]
    · simp [ReplayBuffer.sampleOut, hlen]
    · simp [ReplayBuffer.sampleOut, hlen]
    · simp [ReplayBuffer.sampleOut, hlen]
    · simp [ReplayBuffer.sampleOut, hlen]
    · intro k hk
      have hk2 : k < idxs.length := hlen ▸ hk
      have hmem : idxs.getD k 0 ∈ idxs := by
        rw [List.getD_eq_getElem?_getD, List.getElem?_eq_getElem hk2]
        exact List.getElem_mem hk2
      have hi : idxs.getD k 0 < b.data.length := hidx _ hmem
      refine ⟨b.data.getD (idxs.getD k 0) ⟨[], [], 0, false, []⟩, ?_, ?_, ?_,
        ?_, ?_, ?_⟩
      · rw [List.getD_eq_getElem?_getD, List.getElem?_eq_getElem hi]
        exact List.getElem_mem hi
      · dsimp only [ReplayBuffer.sampleOut]
        rw [getD_map_of_lt _ _ _ (by simpa using hk2) _ ⟨[], [], 0, false, []⟩,
          getD_map_of_lt _ _ _ hk2 _ 0]
      · dsimp only [ReplayBuffer.sampleOut]
        rw [getD_map_of_lt _ _ _ (by simpa using hk2) _ ⟨[], [], 0, false, []⟩,
          getD_map_of_lt _ _ _ hk2 _ 0]
      · dsimp only [ReplayBuffer.sampleOut]
        rw [getD_map_of_lt _ _ _ (by simpa using hk2) _ ⟨[], [], 0, false, []⟩,
          getD_map_of_lt _ _ _ hk2 _ 0]
      · dsimp only [ReplayBuffer.sampleOut]
        rw [getD_map_of_lt _ _ _ (by simpa using hk2) _ ⟨[], [], 0, false, []⟩,
          getD_map_of_lt _ _ _ hk2 _ 0]
      · dsimp only [ReplayBuffer.sampleOut]
        rw [getD_map_of_lt _ _ _ (by simpa using hk2) _ ⟨[], [], 0, false, []⟩,
          getD_map_of_lt _ _ _ hk2 _ 0]

/-- A two-transition buffer used to witness `C7_buffer_sample`. -/
def rbEx : ReplayBuffer :=
  ⟨4, [⟨[1], [2], 3, true, [4]⟩, ⟨[5], [6], 7, false, [8]⟩], 2⟩

/-- Witness for `C7_buffer_sample`: batch of size 2 drawn (with replacement)
as indices `[1, 1]` from the two stored transitions. -/
theorem C7_buffer_sample_witness :
    (rbEx.size < 2 → rbEx.sample 2 [1, 1] = .error .insufficientData) ∧
    (2 ≤ rbEx.size → ∃ out : SampleBatch,
      rbEx.sample 2 [1, 1] = .ok out ∧
      out.states.length = 2 ∧ out.actions.length = 2 ∧
      out.rewards.length = 2 ∧ out.dones.length = 2 ∧
      out.nstates.length = 2 ∧
      ∀ k, k < 2 → ∃ tr, tr ∈ rbEx.data ∧
        out.states.getD k [] = tr.state ∧
        out.actions.getD k [] = tr.action ∧
        out.rewards.getD k 0 = tr.reward ∧
        out.dones.getD k 0 = (if tr.done then (1 : ℚ) else 0) ∧
        out.nstates.getD k [] = tr.nstate) :=
  C7_buffer_sample rbEx 2 [1, 1] (by decide) (by decide)

/-! ### Squashed-Gaussian sampling (`calc_log_pi` / `reparameterize`,
algo.py lines 161-178)

One batch row: `means`, `log_stds` and the standard-normal draw `eps` are
vectors over the action dimensions. -/

/-- Embeds `torch.distributions.Normal(0, std).log_prob(noise)`:
`-(noise^2) / (2 std^2) - log std - log sqrt(2 pi)`. -/
noncomputable def gaussLogProb (std noise : ℝ) : ℝ :=
  -(noise ^ 2) / (2 * std ^ 2) - Real.log std -
    Real.log (Real.sqrt (2 * Real.pi))

/-- Embeds `calc_log_pi` (algo.py lines 161-168): the summed Gaussian log-density of
the noises minus `sum(log(1 - actions^2 + 1e-6))`. -/
noncomputable def calc_log_pi (stds noises actions : List ℝ) : ℝ :=
  (List.zipWith gaussLogProb stds noises).sum -
    (actions.map fun a => Real.log (1 - a ^ 2 + 1e-6)).sum

/-- Embeds `reparameterize` (algo.py lines 171-178): `stds = log_stds.exp()`,
`noises = stds * eps`, `acts = tanh(noises + means)`, log-probability from
`calc_log_pi`. -/
noncomputable def reparameterize (means logStds eps : List ℝ) :
    List ℝ × ℝ :=
  let stds := logStds.map Real.exp
  let noises := List.zipWith (fun s e => s * e) stds eps
  let tmp := List.zipWith (fun n m => n + m) noises means
  let acts := tmp.map Real.tanh
  (acts, calc_log_pi stds noises acts)

def zipWith3 {α β γ δ : Type} (f : α → β → γ → δ) :
    List α → List β → List γ → List δ
  | a :: as, b :: bs, c :: cs => f a b c :: zipWith3 f as bs cs
  | _, _, _ => []

/-- The log-density of `N(mean, std)` at `x`. -/
noncomputable def normalLogPdf (mean std x : ℝ) : ℝ :=
  -((x - mean) ^ 2) / (2 * std ^ 2) - Real.log std -
    Real.log (Real.sqrt (2 * Real.pi))

/-- The spec's formula:
`log pi(a|s) = log N(u; mean, std) - sum_i log(1 - tanh^2(u_i) + 1e-6)` with
`u = mean + exp(log_std) * eps`. -/
noncomputable def spec_log_pi (means logStds eps : List ℝ) : ℝ :=
  (zipWith3 (fun m ls e =>
      normalLogPdf m (Real.exp ls) (m + Real.exp ls * e)) means logStds
      eps).sum -
    (zipWith3 (fun m ls e =>
      Real.log (1 - Real.tanh (m + Real.exp ls * e) ^ 2 + 1e-6)) means logStds
      eps).sum

theorem tanh_bounds (x : ℝ) : -1 < Real.tanh x ∧ Real.tanh x < 1 := by
  rw [Real.tanh_eq_sinh_div_cosh]
  have hc := Real.cosh_pos x
  constructor
  · rw [lt_div_iff₀ hc]
    have h1 := Real.cosh_add_sinh x
    have h2 := Real.exp_pos x
    linarith
  · rw [div_lt_one hc]
    have h1 := Real.cosh_sub_sinh x
    have h2 := Real.exp_pos (-x)
    linarith

theorem zip_gauss_eq (means logStds eps : List ℝ)
    (h1 : logStds.length = means.length) (h2 : eps.length = means.length) :
    List.zipWith gaussLogProb (logStds.map Real.exp)
      (List.zipWith (fun s e => s * e) (logStds.map Real.exp) eps) =
    zipWith3 (fun m ls e => normalLogPdf m (Real.exp ls) (m + Real.exp ls * e))
      means logStds eps := by
  induction means generalizing logStds eps with
  | nil =>
    cases logStds with
    | nil =>
      cases eps with
      | nil => rfl
      | cons _ _ => simp at h2
    | cons _ _ => simp at h1
  | cons m ms ih =>
    cases logStds with
    | nil => simp at h1
    | cons ls lss =>
      cases eps with
      | nil => simp at h2
      | cons e es =>
        simp only [List.length_cons] at h1 h2
        simp only [List.map_cons, List.zipWith_cons_cons, zipWith3]
        refine congrArg₂ List.cons ?_ (ih lss es (by omega) (by omega))
        simp only [gaussLogProb, normalLogPdf]
        ring_nf

theorem zip_tanh_eq (means logStds eps : List ℝ)
    (h1 : logStds.length = means.length) (h2 : eps.length = means.length) :
    ((List.zipWith (fun n m => n + m)
        (List.zipWith (fun s e => s * e) (logStds.map Real.exp) eps)
        means).map Real.tanh).map (fun a => Real.log (1 - a ^ 2 + 1e-6)) =
    zipWith3 (fun m ls e =>
      Real.log (1 - Real.tanh (m + Real.exp ls * e) ^ 2 + 1e-6))
      means logStds eps := by
  induction means generalizing logStds eps with
  | nil =>
    cases logStds with
    | nil =>
      cases eps with
      | nil => rfl
      | cons _ _ => simp at h2
    | cons _ _ => simp at h1
  | cons m ms ih =>
    cases logStds with
    | nil => simp at h1
    | cons ls lss =>
      cases eps with
      | nil => simp at h2
      | cons e es =>
        simp only [List.length_cons] at h1 h2
        simp only [List.map_cons, List.zipWith_cons_cons, zipWith3]
        refine congrArg₂ List.cons ?_ (ih lss es (by omega) (by omega))
        rw [add_comm (Real.exp ls * e) m]

/-- C8: the reparameterized sampler returns actions
`tanh(mean + exp(log_std) * eps)` strictly inside `(-1, 1)` componentwise, and
its log-probability equals the Gaussian log-density of the pre-squash variable
`u = mean + exp(log_std) * eps` minus the summed tanh change-of-variables
correction `log(1 - tanh^2(u_i) + 1e-6)`. -/
theorem C8_squashed_gaussian (means logStds eps : List ℝ)
    (h1 : logStds.length = means.length) (h2 : eps.length = means.length) :
    (∀ a ∈ (reparameterize means logStds eps).1, -1 < a ∧ a < 1) ∧
    (reparameterize means logStds eps).2 = spec_log_pi means logStds eps := by
  constructor
  · intro a ha
    simp only [reparameterize, List.mem_map] at ha
    obtain ⟨x, _, rfl⟩ := ha
    exact tanh_bounds x
  · simp only [reparameterize, calc_log_pi, spec_log_pi]
    rw [zip_gauss_eq means logStds eps h1 h2,
      zip_tanh_eq means logStds eps h1 h2]

/-- Witness for `C8_squashed_gaussian` on a one-dimensional action. -/
theorem C8_squashed_gaussian_witness :
    (∀ a ∈ (reparameterize [0] [0] [0]).1, -1 < a ∧ a < 1) ∧
    (reparameterize [0] [0] [0]).2 = spec_log_pi [0] [0] [0] :=
  C8_squashed_gaussian [0] [0] [0] rfl rfl

/-! ### Trainer evaluation (algo.py lines 76-88 and 120-143)

Environments live in a store of episode states indexed by object identity;
the Trainer keeps references (`envIdx`, `envTestIdx`) into that store.
Environment dynamics are opaque: `resetSt` is the post-reset episode state,
`stepF` advances one step (the deterministic-policy action folded in) and
`doneF` reports episode termination. -/

structure EnvDyn where
  resetSt : ℕ
  stepF : ℕ → ℕ
  doneF : ℕ → Bool

/-- The `while (not done)` loop of `Trainer.evaluate`, fuel-bounded:
repeatedly step, stopping once the environment reports done. -/
def eval_loop (dyn : EnvDyn) : ℕ → ℕ → ℕ
  | 0, s => s
  | fuel + 1, s =>
    let s2 := dyn.stepF s
    if dyn.doneF s2 then s2 else eval_loop dyn fuel s2

/-- One full evaluation episode: `state = self.env_test.reset()` followed by
the step loop. -/
def run_episode (dyn : EnvDyn) (fuel : ℕ) : ℕ := eval_loop dyn fuel dyn.resetSt

structure TrainerSt where
  envStates : List ℕ
  envIdx : ℕ
  envTestIdx : ℕ
  buffer : ReplayBuffer
  actorP : List ℝ
  criticP : List ℝ
  targetP : List ℝ

/-- Embeds `Trainer.__init__` (algo.py lines 77-79): `self.env = env` and
`self.env_test = env` — both fields reference the same environment object. -/
def trainer_init (envStates : List ℕ) (e : ℕ) (b : ReplayBuffer)
    (aP cP tP : List ℝ) : TrainerSt :=
  { envStates := envStates, envIdx := e, envTestIdx := e, buffer := b,
    actorP := aP, criticP := cP, targetP := tP }

/-- Embeds `Trainer.evaluate` (algo.py lines 120-143): runs `num_eval_episodes` full
episodes on `env_test` with the deterministic policy.  It mutates only the
environment referenced by `env_test` (each episode starts from `reset`, so
after at least one episode that environment holds the final state of the last
episode); it never appends to the buffer and never steps an optimizer. -/
def evaluate (dyn : EnvDyn) (numEp fuel : ℕ) (ts : TrainerSt) : TrainerSt :=
  if numEp = 0 then ts
  else { ts with envStates :=
    ts.envStates.set ts.envTestIdx (run_episode dyn fuel) }

/-- A dynamics witness: reset to `0`, each step increments, done from state
`1` on.  Its evaluation episode ends in state `1`. -/
def dynEx : EnvDyn := ⟨0, fun s => s + 1, fun s => decide (s ≥ 1)⟩

/-- C9 counterexample: the Trainer aliases `env_test` to the training
environment (`self.env_test = env`), so running evaluation overwrites the
training environment's in-progress episode state (here `7` becomes `1`): the
episode state is NOT separate from the training episode in progress. -/
theorem C9_counterexample :
    (trainer_init [7] 0 ⟨3, [], 0⟩ [] [] []).envTestIdx =
      (trainer_init [7] 0 ⟨3, [], 0⟩ [] [] []).envIdx ∧
    ¬ (evaluate dynEx 1 5 (trainer_init [7] 0 ⟨3, [], 0⟩ [] [] [])).envStates.getD
        (trainer_init [7] 0 ⟨3, [], 0⟩ [] [] []).envIdx 0 =
      (trainer_init [7] 0 ⟨3, [], 0⟩ [] [] []).envStates.getD
        (trainer_init [7] 0 ⟨3, [], 0⟩ [] [] []).envIdx 0 := by
  constructor
  · rfl
  · decide

/-- C9 (amended): evaluation leaves the replay buffer and every
actor/critic/target-critic parameter unchanged (no buffer writes, no gradient
updates), but it runs on the very environment the Trainer trains on:
`trainer_init` sets `env_test` and `env` to the same reference, so evaluation
resets and consumes the training environment's in-progress episode state
rather than a separate one. -/
theorem C9_evaluate_frame (dyn : EnvDyn) (numEp fuel : ℕ) (ts : TrainerSt)
    (envStates : List ℕ) (e : ℕ) (b : ReplayBuffer) (aP cP tP : List ℝ) :
    (evaluate dyn numEp fuel ts).buffer = ts.buffer ∧
    (evaluate dyn numEp fuel ts).actorP = ts.actorP ∧
    (evaluate dyn numEp fuel ts).criticP = ts.criticP ∧
    (evaluate dyn numEp fuel ts).targetP = ts.targetP ∧
    (trainer_init envStates e b aP cP tP).envTestIdx =
      (trainer_init envStates e b aP cP tP).envIdx := by
  refine ⟨?_, ?_, ?_, ?_, rfl⟩ <;> simp only [evaluate] <;> split <;> rfl

end RLCar
